import Mathlib

/-!
Shallow embedding of the office2pdf Node SDK client
(`src/sdk-node/src/utils.ts`, together with `errors.ts` and `types.ts`),
and proofs of the specification claims about it.

Conventions of the embedding:
* JavaScript numbers appearing as HTTP statuses, retry counts and
  millisecond durations are modelled as `Nat` (negative `maxRetries`
  input as `Int`, clamped as in the source).
* `Math.random()` is modelled as a rational draw in `[0,1)`, one per call,
  supplied as an explicit stream.
* JavaScript `undefined` on optional fields is `Option.none`; JS truthiness
  on strings (`""` falsy) and numbers (`0` falsy) is made explicit.
* The network is the input/output boundary: each attempt of the retry loop
  is fed the outcome `fetch` would have produced (a response, or a thrown
  transport error).  Header names are given lowercased, as `Headers.get`
  is case-insensitive.
-/

set_option maxRecDepth 4096

/- ------------------------- errors.ts: error model ------------------------- -/

/-- The closed error-kind enumeration `Office2PDFErrorCode` of `errors.ts`. -/
inductive ErrorCode where
  | UNAUTHORIZED
  | FORBIDDEN
  | NOT_FOUND
  | RATE_LIMITED
  | QUOTA_EXCEEDED
  | INVALID_REQUEST
  | SERVER_ERROR
  | NETWORK_ERROR
  | TIMEOUT
  | UNKNOWN
  deriving DecidableEq, Repr

/-- A JSON value of an error body, as produced by `res.json()`.  The client
only ever inspects top-level fields for being strings and otherwise stores
the body opaquely, so nested arrays/objects are carried by their serialized
text. -/
inductive JsonValue where
  | str (s : String)
  | num (n : Int)
  | boolJ (b : Bool)
  | nullJ
  | nested (serialized : String)
  deriving DecidableEq, Repr

/-- A parsed JSON object body: field/value pairs (keys unique in JS objects;
property access takes the first match). -/
abbrev JsonObj := List (String × JsonValue)

/-- The `details` diagnostic payload of `Office2PDFError` (`unknown` in TS):
either a parsed JSON error body, the `{ name: err.name }` record built by
`normalizeError`, or the opaquely stored non-`Error` thrown value. -/
inductive Details where
  | jsonBody (j : JsonObj)
  | errName (name : String)
  | rawValue
  deriving DecidableEq, Repr

/-- The structured error class `Office2PDFError` of `errors.ts`. -/
structure Office2PDFError where
  message : String
  code : ErrorCode
  status : Option Nat := none
  requestId : Option String := none
  details : Option Details := none
  deriving DecidableEq, Repr

/- ---------------------- JS primitives used by the code -------------------- -/

/-- Characters removed by JavaScript `String.prototype.trim`: the
WhiteSpace set (TAB, VT, FF, ZWNBSP/BOM and every Unicode Space_Separator
code point: SPACE, NBSP, U+1680, U+2000..U+200A, U+202F, U+205F, U+3000)
and the LineTerminator set (LF, CR, LS, PS). -/
def jsWhitespace (c : Char) : Bool :=
  c = ' ' || c = '\t' || c = '\n' || c = '\r' || c = '\u000B' || c = '\u000C' ||
  c = '\u00A0' || c = '\uFEFF' || c = '\u1680' ||
  (0x2000 ≤ c.toNat && c.toNat ≤ 0x200A) ||
  c = '\u202F' || c = '\u205F' || c = '\u3000' || c = '\u2028' || c = '\u2029'

/-- JavaScript `s.trim()`: strip leading and trailing whitespace. -/
def jsTrim (s : String) : String :=
  String.mk (((s.data.dropWhile jsWhitespace).reverse.dropWhile jsWhitespace).reverse)

/-- JavaScript `s.includes(sub)`: `sub` occurs as a contiguous substring
of `s`, i.e. it is a prefix of some suffix. -/
def includesSubstr (s sub : String) : Bool :=
  (List.range (s.data.length + 1)).any (fun i => sub.data.isPrefixOf (s.data.drop i))

/-- JS truthiness of an optional boolean (`undefined` is falsy). -/
def truthyOptBool : Option Bool → Bool
  | none => false
  | some b => b

/-- JS truthiness of an optional string (`undefined` and `""` are falsy). -/
def truthyOptStr : Option String → Bool
  | none => false
  | some s => !s.isEmpty

/-- JavaScript `s.endsWith(suffix)`. -/
def jsEndsWith (s suffix : String) : Bool :=
  suffix.data.isSuffixOf s.data

/-- JavaScript `s.slice(0, -1)`: drop the final character. -/
def jsDropLast (s : String) : String :=
  String.mk s.data.dropLast

/- ----------------------------- utils.ts ----------------------------------- -/

/-- `isRetryAbleStatus` of `utils.ts`: 408, 429 or a 5xx status. -/
def isRetryAbleStatus (status : Nat) : Bool :=
  status == 408 || status == 429 || (500 ≤ status && status ≤ 599)

/-- `getBackoffMs` of `utils.ts`: `300 * 2^attempt` plus the jitter
`Math.floor(Math.random() * 150)`, the random draw passed explicitly. -/
def getBackoffMs (attempt : Nat) (random : ℚ) : Nat :=
  let base := 300 * 2 ^ attempt
  let jitter := (Int.floor (random * 150)).toNat
  base + jitter

/- ------------------------ client constants and config --------------------- -/

def DEFAULT_BASE_URL : String := "https://api.office2pdf.app"

def DEFAULT_TIMEOUT_MS : Nat := 120000

def DEFAULT_MAX_RETRIES : Int := 2

/-- `normalizeBaseUrl`: default on undefined or empty, JS-trim, then strip
one trailing slash. -/
def normalizeBaseUrl (baseUrl : Option String) : String :=
  let given := match baseUrl with
    | none => DEFAULT_BASE_URL
    | some s => if s.isEmpty then DEFAULT_BASE_URL else s
  let url := jsTrim given
  if jsEndsWith url "/" then jsDropLast url else url

/-- `mapStatusToCode` of the client file: fixed table, then the range
branches exactly as written in the source (`status >= 400 && status < 500`,
then `status >= 500` with no upper bound). -/
def mapStatusToCode (status : Nat) : ErrorCode :=
  if status = 401 then .UNAUTHORIZED
  else if status = 403 then .FORBIDDEN
  else if status = 404 then .NOT_FOUND
  else if status = 429 then .RATE_LIMITED
  else if status = 413 then .QUOTA_EXCEEDED
  else if 400 ≤ status ∧ status < 500 then .INVALID_REQUEST
  else if 500 ≤ status then .SERVER_ERROR
  else .UNKNOWN

/- ------------------------------ HTTP response ------------------------------ -/

/-- An HTTP response as the client observes it through undici `fetch`.
`jsonBody` is what `res.json()` would yield (`none` when parsing throws);
`body` is `res.body` (`none` when the body is `null`, e.g. a 204). -/
structure HttpResponse where
  status : Nat
  headers : List (String × String)
  jsonBody : Option JsonObj
  body : Option (List Nat)
  deriving DecidableEq, Repr

/-- `res.headers.get(k)` (header names already lowercased). -/
def HttpResponse.hget (res : HttpResponse) (k : String) : Option String :=
  (res.headers.find? (fun p => p.1 == k)).map (fun p => p.2)

/-- `res.ok`: status in the inclusive range 200..299. -/
def HttpResponse.ok (res : HttpResponse) : Bool :=
  200 ≤ res.status && res.status ≤ 299

/-- `safeReadJson`: parse the body as JSON only when the content-type
contains `application/json` (absent header read as `""`); a parse failure
also yields `null`. -/
def safeReadJson (res : HttpResponse) : Option JsonObj :=
  let ct := (res.hget "content-type").getD ""
  if includesSubstr ct "application/json" then res.jsonBody else none

/-- `getRequestId`: `x-request-id`, else `cf-ray`, else undefined. -/
def getRequestId (res : HttpResponse) : Option String :=
  match res.hget "x-request-id" with
  | some v => some v
  | none => res.hget "cf-ray"

/-- JS object property access (first binding of the key, if any). -/
def jget (j : JsonObj) (k : String) : Option JsonValue :=
  (j.find? (fun p => p.1 == k)).map (fun p => p.2)

/-- The value of field `k` when it is a string (`typeof v === "string"`). -/
def jsonGetStr (j : JsonObj) (k : String) : Option String :=
  match jget j k with
  | some (.str s) => some s
  | _ => none

/- --------------------------- abort-signal model --------------------------- -/

/-- An `AbortSignal`, reduced to its observable aborted flag plus an
identity so the merge's choice of signal is observable. -/
structure AbortSignalM where
  id : Nat
  aborted : Bool
  deriving DecidableEq, Repr

/-- `mergeAbortSignals` of the client file, on the abstract signal model:
drop undefined signals; zero signals merge to undefined; one signal is
returned as-is; if some active signal is already aborted the first such
signal is returned; otherwise a fresh (not yet aborted) controller signal
is produced. -/
def mergeAbortSignals (signals : List (Option AbortSignalM)) (freshId : Nat) :
    Option AbortSignalM :=
  let active := signals.filterMap id
  match active with
  | [] => none
  | [s] => some s
  | _ =>
    match active.find? (fun s => s.aborted) with
    | some s => some s
    | none => some ⟨freshId, false⟩

/- ---------------------------- types.ts: params ---------------------------- -/

/-- `ConvertParams` of `types.ts`. -/
structure ConvertParams where
  filePath : String
  fileName : Option String := none
  output : Option String := none
  password : Option String := none
  signal : Option AbortSignalM := none
  downloadToPath : Option String := none
  asWebStream : Option Bool := none
  deriving DecidableEq, Repr

/-- `ConvertResult` of `types.ts`: the tagged union of the three delivery
modes. -/
inductive ConvertResult where
  | buffer (buf : List Nat) (contentType : String) (requestId : Option String)
  | downloaded (path : String) (contentType : String) (requestId : Option String)
  | stream (s : List Nat) (contentType : String) (requestId : Option String)
  deriving DecidableEq, Repr

/-- The TS discriminant string of a `ConvertResult`. -/
def ConvertResult.kind : ConvertResult → String
  | .buffer .. => "buffer"
  | .downloaded .. => "downloaded"
  | .stream .. => "stream"

/-- The content type carried by a `ConvertResult`. -/
def ConvertResult.contentType : ConvertResult → String
  | .buffer _ ct _ => ct
  | .downloaded _ ct _ => ct
  | .stream _ ct _ => ct

/-- The request id carried by a `ConvertResult`. -/
def ConvertResult.requestId : ConvertResult → Option String
  | .buffer _ _ rid => rid
  | .downloaded _ _ rid => rid
  | .stream _ _ rid => rid

/- ------------------------- node:path posix dirname ------------------------ -/

/-- The index scan of Node's posix `path.dirname`: walk indices from the end
down to 1; skip trailing slashes; the first slash met after a non-slash
character is the cut point. -/
def dirnameGo (cs : List Char) : Nat → Bool → Option Nat
  | 0, _ => none
  | i + 1, matchedSlash =>
    if cs.get? (i + 1) = some '/' then
      if matchedSlash then dirnameGo cs i true else some (i + 1)
    else dirnameGo cs i false

/-- Node's posix `path.dirname`. -/
def posixDirname (p : String) : String :=
  if p.length = 0 then "."
  else
    let cs := p.data
    let hasRoot := cs.get? 0 = some '/'
    match dirnameGo cs (p.length - 1) true with
    | none => if hasRoot then "/" else "."
    | some e => if hasRoot ∧ e = 1 then "//" else String.mk (cs.take e)

/- ----------------------------- filesystem model --------------------------- -/

/-- The file-system facts `validateParams` consults through `fs.access`:
which paths pass an `R_OK` check and which directories pass a `W_OK`
check. -/
structure FileSystem where
  readable : String → Bool
  writableDir : String → Bool

/-- `Office2PDF.validateParams`, with the `fs.access` calls answered by the
file-system model.  Checks run in source order; every failure is an
`INVALID_REQUEST` `Office2PDFError`. -/
def validateParams (fs : FileSystem) (params : ConvertParams) :
    Except Office2PDFError Unit :=
  if (jsTrim params.filePath).isEmpty then
    .error { message := "filePath is required", code := .INVALID_REQUEST }
  else if !fs.readable params.filePath then
    .error { message := "File not found or not readable: " ++ params.filePath,
             code := .INVALID_REQUEST }
  else if truthyOptBool params.asWebStream && truthyOptStr params.downloadToPath then
    .error { message := "Cannot use asWebStream with downloadToPath",
             code := .INVALID_REQUEST }
  else if truthyOptStr params.downloadToPath then
    let dir := posixDirname (params.downloadToPath.getD "")
    if !dir.isEmpty && dir != "." then
      if !fs.writableDir dir then
        .error { message := "Download directory not writable: " ++ dir,
                 code := .INVALID_REQUEST }
      else .ok ()
    else .ok ()
  else .ok ()

/- ------------------------- thrown values and attempts ---------------------- -/

/-- A value thrown inside one attempt of `convert`, as `normalizeError`
distinguishes them: an `Office2PDFError` (e.g. from `handleResponse`), a
`DOMException` named `AbortError` (an aborted `fetch`), any other `Error`
instance, or a non-`Error` value. -/
inductive RawError where
  | o2p (e : Office2PDFError)
  | domAbort
  | jsErr (name message : String)
  | nonError
  deriving DecidableEq, Repr

/-- `Office2PDF.normalizeError`. -/
def normalizeError : RawError → Office2PDFError
  | .o2p e => e
  | .domAbort => { message := "Request timed out", code := .TIMEOUT }
  | .jsErr name msg =>
    { message := msg, code := .NETWORK_ERROR, details := some (.errName name) }
  | .nonError =>
    { message := "Unknown error", code := .UNKNOWN, details := some .rawValue }

/-- `Office2PDF.isRetryAble`: TIMEOUT and NETWORK_ERROR always retry;
otherwise a truthy (present, non-zero) status that `isRetryAbleStatus`
accepts. -/
def isRetryAble (error : Office2PDFError) : Bool :=
  if error.code == .TIMEOUT || error.code == .NETWORK_ERROR then true
  else
    match error.status with
    | some s => (s != 0) && isRetryAbleStatus s
    | none => false

/-- What one `fetch` of `sendConvertRequest` produced: a settled HTTP
response, or a thrown transport-level error (abort, network failure). -/
inductive AttemptOutcome where
  | response (res : HttpResponse)
  | transportFailure (e : RawError)
  deriving DecidableEq, Repr

/- ------------------------------ handleResponse ---------------------------- -/

/-- The non-2xx block of `Office2PDF.handleResponse`: the structured error
built from the optional JSON body, the status mapping and the request
id (the `message` / `error_description` / generic-fallback chain of the
source). -/
def respError (res : HttpResponse) : Office2PDFError :=
  let requestId := getRequestId res
  let json := safeReadJson res
  let message :=
    match json with
    | some j =>
      match jsonGetStr j "message" with
      | some m => m
      | none =>
        match jsonGetStr j "error_description" with
        | some m => m
        | none => "Request failed with status " ++ toString res.status
    | none => "Request failed with status " ++ toString res.status
  { message := message, code := mapStatusToCode res.status,
    status := some res.status, requestId := requestId,
    details := json.map Details.jsonBody }

/-- `Office2PDF.handleResponse`: on non-2xx build the structured error from
the optional JSON body, the status mapping and the request id; on 2xx
branch on the delivery mode, failing with UNKNOWN when a stream is needed
but the body is `null`. -/
def handleResponse (res : HttpResponse) (params : ConvertParams) :
    Except Office2PDFError ConvertResult :=
  let requestId := getRequestId res
  if !res.ok then
    .error (respError res)
  else
    let contentType := (res.hget "content-type").getD "application/pdf"
    if truthyOptBool params.asWebStream then
      match res.body with
      | none =>
        .error { message := "Empty response body", code := .UNKNOWN,
                 requestId := requestId }
      | some b => .ok (.stream b contentType requestId)
    else if truthyOptStr params.downloadToPath then
      match res.body with
      | none =>
        .error { message := "Empty response body", code := .UNKNOWN,
                 requestId := requestId }
      | some _ =>
        .ok (.downloaded (params.downloadToPath.getD "") contentType requestId)
    else
      .ok (.buffer (res.body.getD []) contentType requestId)

/-- One attempt of the loop body of `convert`: a settled response goes
through `handleResponse` (whose throw is an `Office2PDFError`), a transport
failure is rethrown as-is. -/
def attemptResult (params : ConvertParams) (o : AttemptOutcome) :
    Except RawError ConvertResult :=
  match o with
  | .response res => (handleResponse res params).mapError RawError.o2p
  | .transportFailure e => .error e

/- ------------------------------ construction ------------------------------ -/

/-- `Office2PDFClientOptions` of `types.ts` (`maxRetries` as an `Int`: the
caller may pass a negative number, which the constructor clamps). -/
structure Office2PDFClientOptions where
  apiKey : String
  baseUrl : Option String := none
  timeoutMs : Option Nat := none
  userAgent : Option String := none
  maxRetries : Option Int := none
  deriving DecidableEq, Repr

/-- The private fields the `Office2PDF` constructor stores. -/
structure ClientState where
  apiKey : String
  baseUrl : String
  timeoutMs : Nat
  userAgent : String
  maxRetries : Nat
  deriving DecidableEq, Repr

/-- The `Office2PDF` constructor: reject a whitespace-only key, otherwise
store the trimmed key, the normalized base URL, and the defaulted/clamped
remaining options.  No network interaction occurs (the model has no
network input at all here). -/
def mkClient (opts : Office2PDFClientOptions) : Except String ClientState :=
  if (jsTrim opts.apiKey).isEmpty then
    .error "Office2PDF: apiKey is required"
  else
    .ok { apiKey := jsTrim opts.apiKey
          baseUrl := normalizeBaseUrl opts.baseUrl
          timeoutMs := opts.timeoutMs.getD DEFAULT_TIMEOUT_MS
          userAgent := opts.userAgent.getD "office2pdf-node"
          maxRetries := (max 0 (opts.maxRetries.getD DEFAULT_MAX_RETRIES)).toNat }

/- ------------------------------- retry loop -------------------------------- -/

/-- Decidable equality for `Except`, so traces can be compared by
`decide`. -/
def exceptDecEq {ε α : Type} [DecidableEq ε] [DecidableEq α] :
    DecidableEq (Except ε α)
  | .ok a, .ok b =>
    match decEq a b with
    | isTrue h => isTrue (by rw [h])
    | isFalse h => isFalse (by intro he; cases he; exact h rfl)
  | .ok _, .error _ => isFalse (by intro h; cases h)
  | .error _, .ok _ => isFalse (by intro h; cases h)
  | .error a, .error b =>
    match decEq a b with
    | isTrue h => isTrue (by rw [h])
    | isFalse h => isFalse (by intro he; cases he; exact h rfl)

instance {ε α : Type} [DecidableEq ε] [DecidableEq α] :
    DecidableEq (Except ε α) := exceptDecEq

/-- The observable trace of one `convert` call: its returned value or
thrown error, how many attempts (calls of `sendConvertRequest`) were made,
and the list of backoff sleeps that were awaited, in order. -/
structure ConvertTrace where
  result : Except Office2PDFError ConvertResult
  attemptsUsed : Nat
  sleeps : List Nat
  deriving DecidableEq, Repr

/-- The `for (attempt = 0; attempt <= maxRetries; attempt++)` loop of
`convert`, embedded with explicit fuel: the loop guard `attempt ≤
maxRetries` holds exactly while `fuel = maxRetries + 1 - attempt` is
positive, and running out of fuel is falling out of the loop into
`throw lastError ?? fallback`.  `outcomes n` is what attempt `n`'s fetch
produced and `rand n` the `Math.random()` draw of the sleep after it. -/
def convertLoopAux (maxRetries : Nat) (params : ConvertParams)
    (outcomes : Nat → AttemptOutcome) (rand : Nat → ℚ)
    (fallback : Office2PDFError) :
    Nat → Nat → Option Office2PDFError → Nat → List Nat → ConvertTrace
  | 0, _, lastError, used, sleeps =>
    ⟨.error (lastError.getD fallback), used, sleeps⟩
  | fuel + 1, attempt, lastError, used, sleeps =>
    match attemptResult params (outcomes attempt) with
    | .ok r => ⟨.ok r, used + 1, sleeps⟩
    | .error raw =>
      let normalized := normalizeError raw
      if attempt < maxRetries && isRetryAble normalized then
        convertLoopAux maxRetries params outcomes rand fallback fuel
          (attempt + 1) (some normalized) (used + 1)
          (sleeps ++ [getBackoffMs attempt (rand attempt)])
      else ⟨.error normalized, used + 1, sleeps⟩

/-- The generic `UNKNOWN` error of the post-loop `throw` in `convert`. -/
def unexpectedConversionFailure : Office2PDFError :=
  { message := "Unexpected conversion failure", code := .UNKNOWN }

/-- `Office2PDF.convert` with the post-loop fallback error abstracted
(used to show the fallback is unreachable): validate, then run the retry
loop from attempt 0. -/
def convertWithFallback (fallback : Office2PDFError) (maxRetries : Nat)
    (fs : FileSystem) (params : ConvertParams)
    (outcomes : Nat → AttemptOutcome) (rand : Nat → ℚ) : ConvertTrace :=
  match validateParams fs params with
  | .error e => ⟨.error e, 0, []⟩
  | .ok _ =>
    convertLoopAux maxRetries params outcomes rand fallback
      (maxRetries + 1) 0 none 0 []

/-- `Office2PDF.convert`. -/
def convert (maxRetries : Nat) (fs : FileSystem) (params : ConvertParams)
    (outcomes : Nat → AttemptOutcome) (rand : Nat → ℚ) : ConvertTrace :=
  convertWithFallback unexpectedConversionFailure maxRetries fs params
    outcomes rand

/- --------------------- specification-side definitions --------------------- -/

/-- The status-to-kind table as amended: the fixed entries, then any other
status in [400,499] maps to INVALID_REQUEST, any status at or above 500
maps to SERVER_ERROR, and anything else maps to UNKNOWN. -/
def specStatusKindAmended (status : Nat) : ErrorCode :=
  if status = 401 then .UNAUTHORIZED
  else if status = 403 then .FORBIDDEN
  else if status = 404 then .NOT_FOUND
  else if status = 429 then .RATE_LIMITED
  else if status = 413 then .QUOTA_EXCEEDED
  else if 400 ≤ status ∧ status ≤ 499 then .INVALID_REQUEST
  else if 500 ≤ status then .SERVER_ERROR
  else .UNKNOWN

/-- The stored base URL as amended: the given URL when provided and
non-empty, else the default, whitespace-trimmed and then with one trailing
slash trimmed. -/
def specBaseUrlAmended (baseUrl : Option String) : String :=
  let chosen := match baseUrl with
    | none => DEFAULT_BASE_URL
    | some s => if s = "" then DEFAULT_BASE_URL else s
  let trimmed := jsTrim chosen
  if jsEndsWith trimmed "/" then jsDropLast trimmed else trimmed

/- --------------------------- concrete fixtures ----------------------------- -/

def fsRead : FileSystem := ⟨fun p => p == "doc.docx", fun _ => true⟩

def fsNoWrite : FileSystem := ⟨fun p => p == "doc.docx", fun _ => false⟩

def rand0 : Nat → ℚ := fun _ => 0

def paramsBuf : ConvertParams := { filePath := "doc.docx" }

def paramsStream : ConvertParams :=
  { filePath := "doc.docx", asWebStream := some true }

def paramsDl : ConvertParams :=
  { filePath := "doc.docx", downloadToPath := some "out.pdf" }

def paramsBad : ConvertParams := { filePath := "nope.docx" }

def res200buf : HttpResponse :=
  ⟨200, [("content-type", "application/pdf"), ("x-request-id", "rid_1")],
    none, some [37, 80, 68, 70]⟩

def res429e : HttpResponse := ⟨429, [], none, none⟩

def res401j : HttpResponse :=
  ⟨401, [("content-type", "application/json")],
    some [("error", .str "UNAUTHORIZED"), ("message", .str "Invalid API key")],
    some []⟩

def res422 : HttpResponse :=
  ⟨422, [("content-type", "application/json")],
    some [("error", .str "SOME_CODE")], some []⟩

def res600 : HttpResponse := ⟨600, [], none, some []⟩

def res204 : HttpResponse := ⟨204, [], none, none⟩

def optsSlashSpace : Office2PDFClientOptions :=
  { apiKey := "k", baseUrl := some "https://h/ " }

def optsPlain : Office2PDFClientOptions := { apiKey := "key" }

def err401 : Office2PDFError :=
  { message := "m", code := .UNAUTHORIZED, status := some 401 }

def outcomes429 : Nat → AttemptOutcome := fun _ => .response res429e

def outcomesAbort : Nat → AttemptOutcome :=
  fun _ => .transportFailure .domAbort

def outcomesRetryThenOk : Nat → AttemptOutcome :=
  fun n => if n < 1 then .response res429e else .response res200buf

/- ------------------------------ loop lemmas -------------------------------- -/

/-- An attempt outcome that fails and whose normalized error is
retry-eligible. -/
def retryEligFail (params : ConvertParams) (o : AttemptOutcome) : Prop :=
  ∃ raw, attemptResult params o = .error raw ∧
    isRetryAble (normalizeError raw) = true

/-- A failed attempt that is not followed by a retry — because the attempt
index has reached `maxRetries` or the error is not retry-eligible —
terminates the loop with that attempt's normalized error. -/
theorem convertLoopAux_stop (maxRetries : Nat) (params : ConvertParams)
    (outcomes : Nat → AttemptOutcome) (rand : Nat → ℚ) (fb : Office2PDFError)
    (attempt : Nat) (lastErr : Option Office2PDFError) (used : Nat)
    (sleeps : List Nat) (raw : RawError)
    (hle : attempt ≤ maxRetries)
    (hfail : attemptResult params (outcomes attempt) = .error raw)
    (hstop : attempt < maxRetries → isRetryAble (normalizeError raw) = false) :
    convertLoopAux maxRetries params outcomes rand fb (maxRetries + 1 - attempt)
      attempt lastErr used sleeps =
      ⟨.error (normalizeError raw), used + 1, sleeps⟩ := by
  obtain ⟨f, hf⟩ : ∃ f, maxRetries + 1 - attempt = f + 1 :=
    ⟨maxRetries - attempt, by omega⟩
  rw [hf]
  simp only [convertLoopAux, hfail]
  by_cases hlt : attempt < maxRetries
  · simp [hstop hlt]
  · simp [hlt]

/-- One unfolding of the retry loop at a failed attempt: the loop retries
exactly when the attempt index is below `maxRetries` and the normalized
error is retry-eligible, and otherwise rethrows that error. -/
theorem convertLoopAux_step (maxRetries : Nat) (params : ConvertParams)
    (outcomes : Nat → AttemptOutcome) (rand : Nat → ℚ) (fb : Office2PDFError)
    (attempt : Nat) (lastErr : Option Office2PDFError) (used : Nat)
    (sleeps : List Nat) (raw : RawError)
    (hle : attempt ≤ maxRetries)
    (hfail : attemptResult params (outcomes attempt) = .error raw) :
    convertLoopAux maxRetries params outcomes rand fb (maxRetries + 1 - attempt)
      attempt lastErr used sleeps =
      if attempt < maxRetries ∧ isRetryAble (normalizeError raw) = true then
        convertLoopAux maxRetries params outcomes rand fb
          (maxRetries + 1 - (attempt + 1)) (attempt + 1)
          (some (normalizeError raw)) (used + 1)
          (sleeps ++ [getBackoffMs attempt (rand attempt)])
      else ⟨.error (normalizeError raw), used + 1, sleeps⟩ := by
  obtain ⟨f, hf⟩ : ∃ f, maxRetries + 1 - attempt = f + 1 :=
    ⟨maxRetries - attempt, by omega⟩
  rw [hf]
  simp only [convertLoopAux, hfail]
  by_cases hlt : attempt < maxRetries
  · by_cases helig : isRetryAble (normalizeError raw) = true
    · have hfe : f = maxRetries + 1 - (attempt + 1) := by omega
      simp [hlt, helig, hfe]
    · simp [hlt, helig]
  · simp [hlt]

/-- Running the loop over `j` retry-eligible failures followed by a
successful attempt returns that success, consuming `j + 1` attempts and
sleeping the per-retry backoff each time. -/
theorem convertLoopAux_run_ok (maxRetries : Nat) (params : ConvertParams)
    (outcomes : Nat → AttemptOutcome) (rand : Nat → ℚ) (fb : Office2PDFError)
    (r : ConvertResult) :
    ∀ (j attempt : Nat) (lastErr : Option Office2PDFError) (used : Nat)
      (sleeps : List Nat),
    attempt + j ≤ maxRetries →
    (∀ i, attempt ≤ i → i < attempt + j → retryEligFail params (outcomes i)) →
    attemptResult params (outcomes (attempt + j)) = .ok r →
    convertLoopAux maxRetries params outcomes rand fb (maxRetries + 1 - attempt)
      attempt lastErr used sleeps =
      ⟨.ok r, used + j + 1,
        sleeps ++ (List.range' attempt j).map (fun i => getBackoffMs i (rand i))⟩ := by
  intro j
  induction j with
  | zero =>
    intro attempt lastErr used sleeps hle _ hok
    obtain ⟨f, hf⟩ : ∃ f, maxRetries + 1 - attempt = f + 1 :=
      ⟨maxRetries - attempt, by omega⟩
    rw [hf]
    rw [show attempt + 0 = attempt from rfl] at hok
    simp only [convertLoopAux, hok]
    simp
  | succ j ih =>
    intro attempt lastErr used sleeps hle hall hok
    obtain ⟨raw, hraw, helig⟩ := hall attempt (le_refl _) (by omega)
    obtain ⟨f, hf⟩ : ∃ f, maxRetries + 1 - attempt = f + 1 :=
      ⟨maxRetries - attempt, by omega⟩
    rw [hf]
    simp only [convertLoopAux, hraw]
    have hlt : attempt < maxRetries := by omega
    rw [if_pos (by simp [hlt, helig])]
    rw [show f = maxRetries + 1 - (attempt + 1) by omega]
    rw [ih (attempt + 1) (some (normalizeError raw)) (used + 1)
          (sleeps ++ [getBackoffMs attempt (rand attempt)]) (by omega)
          (fun i h1 h2 => hall i (by omega) (by omega))
          (by rw [show attempt + 1 + j = attempt + (j + 1) by omega]; exact hok)]
    congr 1
    · omega
    · rw [List.range'_succ]
      simp [List.append_assoc]

/-- Running the loop over retry-eligible failures up to `maxRetries`, with
the final attempt also failing, rethrows the final attempt's normalized
error after `j + 1` attempts and `j` backoff sleeps. -/
theorem convertLoopAux_run_fail (maxRetries : Nat) (params : ConvertParams)
    (outcomes : Nat → AttemptOutcome) (rand : Nat → ℚ) (fb : Office2PDFError)
    (rawLast : RawError) :
    ∀ (j attempt : Nat) (lastErr : Option Office2PDFError) (used : Nat)
      (sleeps : List Nat),
    attempt + j = maxRetries →
    (∀ i, attempt ≤ i → i < maxRetries → retryEligFail params (outcomes i)) →
    attemptResult params (outcomes maxRetries) = .error rawLast →
    convertLoopAux maxRetries params outcomes rand fb (maxRetries + 1 - attempt)
      attempt lastErr used sleeps =
      ⟨.error (normalizeError rawLast), used + j + 1,
        sleeps ++ (List.range' attempt j).map (fun i => getBackoffMs i (rand i))⟩ := by
  intro j
  induction j with
  | zero =>
    intro attempt lastErr used sleeps hsum _ hfail
    have ha : attempt = maxRetries := by omega
    subst ha
    obtain ⟨f, hf⟩ : ∃ f, attempt + 1 - attempt = f + 1 := ⟨0, by omega⟩
    rw [hf]
    simp only [convertLoopAux, hfail]
    simp
  | succ j ih =>
    intro attempt lastErr used sleeps hsum hall hfail
    obtain ⟨raw, hraw, helig⟩ := hall attempt (le_refl _) (by omega)
    obtain ⟨f, hf⟩ : ∃ f, maxRetries + 1 - attempt = f + 1 :=
      ⟨maxRetries - attempt, by omega⟩
    rw [hf]
    simp only [convertLoopAux, hraw]
    have hlt : attempt < maxRetries := by omega
    rw [if_pos (by simp [hlt, helig])]
    rw [show f = maxRetries + 1 - (attempt + 1) by omega]
    rw [ih (attempt + 1) (some (normalizeError raw)) (used + 1)
          (sleeps ++ [getBackoffMs attempt (rand attempt)]) (by omega)
          (fun i h1 h2 => hall i (by omega) h2) hfail]
    congr 1
    · omega
    · rw [List.range'_succ]
      simp [List.append_assoc]

/-- The result of the loop does not depend on the post-loop fallback error
as long as it starts inside the loop bound (`attempt + fuel = maxRetries +
1` with at least one unit of fuel): the out-of-fuel branch is never
reached. -/
theorem convertLoopAux_fb (maxRetries : Nat) (params : ConvertParams)
    (outcomes : Nat → AttemptOutcome) (rand : Nat → ℚ)
    (fb fb2 : Office2PDFError) :
    ∀ (fuel attempt : Nat) (lastErr : Option Office2PDFError) (used : Nat)
      (sleeps : List Nat),
    attempt + fuel = maxRetries + 1 → 1 ≤ fuel →
    convertLoopAux maxRetries params outcomes rand fb fuel attempt lastErr
      used sleeps =
    convertLoopAux maxRetries params outcomes rand fb2 fuel attempt lastErr
      used sleeps := by
  intro fuel
  induction fuel with
  | zero => intro _ _ _ _ _ h1; omega
  | succ f ih =>
    intro attempt lastErr used sleeps hsum _
    simp only [convertLoopAux]
    split
    · rfl
    · rename_i raw hres
      split
      · rename_i hcond
        have hlt : attempt < maxRetries := by
          simp only [Bool.and_eq_true, decide_eq_true_eq] at hcond
          exact hcond.1
        exact ih (attempt + 1) _ _ _ (by omega) (by omega)
      · rfl

/-- Every error `validateParams` produces carries kind INVALID_REQUEST. -/
theorem validateParams_code (fs : FileSystem) (params : ConvertParams)
    (e : Office2PDFError) (h : validateParams fs params = .error e) :
    e.code = .INVALID_REQUEST := by
  unfold validateParams at h
  split_ifs at h
  all_goals try (dsimp only [] at h)
  all_goals try split_ifs at h
  all_goals
    first
    | exact Except.noConfusion h
    | (rw [Except.error.injEq] at h; subst h; rfl)

/- ---------------------------- support lemmas ------------------------------- -/

/-- Every element surviving `dropWhile p` satisfying `p` is the same as every
element of the list satisfying `p`. -/
theorem dropWhile_all_iff {α : Type} (p : α → Bool) (l : List α) :
    (∀ x ∈ l.dropWhile p, p x = true) ↔ (∀ x ∈ l, p x = true) := by
  induction l with
  | nil => simp
  | cons a as ih =>
    rw [List.dropWhile_cons]
    by_cases hp : p a = true
    · rw [if_pos hp]
      constructor
      · intro h x hx
        rcases List.mem_cons.mp hx with hxa | hx2
        · rw [hxa]; exact hp
        · exact (ih.mp h) x hx2
      · intro h x hx
        exact ih.mpr (fun y hy => h y (List.mem_cons_of_mem _ hy)) x hx
    · rw [if_neg hp]

/-- `jsTrim` erases a string exactly when every character is JS
whitespace. -/
theorem jsTrim_eq_empty_iff (s : String) :
    jsTrim s = "" ↔ ∀ c ∈ s.data, jsWhitespace c = true := by
  unfold jsTrim
  rw [String.ext_iff]
  show ((s.data.dropWhile jsWhitespace).reverse.dropWhile jsWhitespace).reverse
      = ([] : List Char) ↔ _
  rw [List.reverse_eq_nil_iff, List.dropWhile_eq_nil_iff]
  simp only [List.mem_reverse]
  exact dropWhile_all_iff jsWhitespace s.data

/-- The index scan of `posixDirname` only ever returns positions at least
1. -/
theorem dirnameGo_pos (cs : List Char) :
    ∀ i b e, dirnameGo cs i b = some e → 1 ≤ e := by
  intro i
  induction i with
  | zero => intro b e h; simp [dirnameGo] at h
  | succ i ih =>
    intro b e h
    unfold dirnameGo at h
    split_ifs at h
    · exact ih _ _ h
    · injection h with h2; omega
    · exact ih _ _ h

/-- `posixDirname` never returns the empty string. -/
theorem posixDirname_ne_empty (p : String) : posixDirname p ≠ "" := by
  unfold posixDirname
  by_cases hlen : p.length = 0
  · simp [hlen]
  · rw [if_neg hlen]
    cases hgo : dirnameGo p.data (p.length - 1) true with
    | none =>
      simp only [hgo]
      by_cases hroot : p.data.get? 0 = some '/'
      · rw [if_pos hroot]; decide
      · rw [if_neg hroot]; decide
    | some e =>
      have he : 1 ≤ e := dirnameGo_pos _ _ _ _ hgo
      simp only [hgo]
      by_cases hre : p.data.get? 0 = some '/' ∧ e = 1
      · rw [if_pos hre]; decide
      · rw [if_neg hre]
        intro hcontra
        rw [String.ext_iff] at hcontra
        have htake : p.data.take e = ([] : List Char) := hcontra
        rw [List.take_eq_nil_iff] at htake
        rcases htake with h1 | h1
        · omega
        · have hlen2 : p.data.length = 0 := by rw [h1]; rfl
          exact hlen hlen2

/-- The jitter `Math.floor(r * 150)` lies below 150 for a random draw `r`
in `[0, 1)`. -/
theorem jitter_lt_150 (r : ℚ) (h0 : 0 ≤ r) (h1 : r < 1) :
    (Int.floor (r * 150)).toNat < 150 := by
  have hlt : Int.floor (r * 150) < 150 := by
    rw [Int.floor_lt]
    push_cast
    nlinarith
  omega

/-- On a non-2xx response `handleResponse` throws exactly the structured
error `respError`. -/
theorem handleResponse_not_ok (res : HttpResponse) (params : ConvertParams)
    (h : res.ok = false) :
    handleResponse res params = .error (respError res) := by
  unfold handleResponse
  simp [h]

/-- A validation failure makes `convert` rethrow it before any attempt. -/
theorem convert_validate_fail (maxRetries : Nat) (fs : FileSystem)
    (params : ConvertParams) (outcomes : Nat → AttemptOutcome)
    (rand : Nat → ℚ) (e : Office2PDFError)
    (h : validateParams fs params = .error e) :
    convert maxRetries fs params outcomes rand = ⟨.error e, 0, []⟩ := by
  unfold convert convertWithFallback
  rw [h]

/-- With validation passed, `convert` is the retry loop started at attempt
0 with full fuel. -/
theorem convert_validate_ok (maxRetries : Nat) (fs : FileSystem)
    (params : ConvertParams) (outcomes : Nat → AttemptOutcome)
    (rand : Nat → ℚ) (h : validateParams fs params = .ok ()) :
    convert maxRetries fs params outcomes rand =
      convertLoopAux maxRetries params outcomes rand
        unexpectedConversionFailure (maxRetries + 1) 0 none 0 [] := by
  unfold convert convertWithFallback
  rw [h]

/- ------------------------------- claims ------------------------------------ -/

/-- C10: the post-loop fallback in `convert` — throwing a generic UNKNOWN
"Unexpected conversion failure" error when no error was recorded — is
unreachable: every iteration of the retry loop either returns or throws,
so the result of `convert` is the same whatever error value stands in for
the fallback. -/
theorem claim_c10 (fb : Office2PDFError) (maxRetries : Nat) (fs : FileSystem)
    (params : ConvertParams) (outcomes : Nat → AttemptOutcome)
    (rand : Nat → ℚ) :
    convertWithFallback fb maxRetries fs params outcomes rand =
      convert maxRetries fs params outcomes rand := by
  unfold convert convertWithFallback
  cases hval : validateParams fs params with
  | error e => rfl
  | ok u =>
    cases u
    exact convertLoopAux_fb maxRetries params outcomes rand fb
      unexpectedConversionFailure (maxRetries + 1) 0 none 0 [] (by omega)
      (by omega)

/-- C2: with `maxRetries = N`, a run of `N` retry-eligible failures
followed by a success returns that success after exactly `N + 1` attempts,
and `N + 1` consecutive retry-eligible failures throw the last observed
error after exactly `N + 1` attempts. -/
theorem claim_c2 (N : Nat) (fs : FileSystem) (params : ConvertParams)
    (outcomes : Nat → AttemptOutcome) (rand : Nat → ℚ) (r : ConvertResult)
    (rawLast : RawError)
    (hval : validateParams fs params = .ok ()) :
    ((∀ i, i < N → retryEligFail params (outcomes i)) →
      attemptResult params (outcomes N) = .ok r →
      (convert N fs params outcomes rand).result = .ok r ∧
      (convert N fs params outcomes rand).attemptsUsed = N + 1) ∧
    ((∀ i, i < N → retryEligFail params (outcomes i)) →
      attemptResult params (outcomes N) = .error rawLast →
      isRetryAble (normalizeError rawLast) = true →
      (convert N fs params outcomes rand).result =
        .error (normalizeError rawLast) ∧
      (convert N fs params outcomes rand).attemptsUsed = N + 1) := by
  constructor
  · intro hall hok
    rw [convert_validate_ok N fs params outcomes rand hval]
    have h := convertLoopAux_run_ok N params outcomes rand
      unexpectedConversionFailure r N 0 none 0 [] (by omega)
      (fun i hi1 hi2 => hall i (by omega))
      (by rw [Nat.zero_add]; exact hok)
    simp only [Nat.sub_zero] at h
    rw [h]
    exact ⟨rfl, by show 0 + N + 1 = N + 1; omega⟩
  · intro hall hfail _
    rw [convert_validate_ok N fs params outcomes rand hval]
    have h := convertLoopAux_run_fail N params outcomes rand
      unexpectedConversionFailure rawLast N 0 none 0 [] (by omega)
      (fun i hi1 hi2 => hall i hi2) hfail
    simp only [Nat.sub_zero] at h
    rw [h]
    exact ⟨rfl, by show 0 + N + 1 = N + 1; omega⟩

theorem claim_c2_witness :
    (convert 1 fsRead paramsBuf outcomesRetryThenOk rand0).result =
      .ok (.buffer [37, 80, 68, 70] "application/pdf" (some "rid_1")) ∧
    (convert 1 fsRead paramsBuf outcomesRetryThenOk rand0).attemptsUsed = 2 := by
  have h := (claim_c2 1 fsRead paramsBuf outcomesRetryThenOk rand0
    (.buffer [37, 80, 68, 70] "application/pdf" (some "rid_1"))
    RawError.nonError (by decide)).1
  exact h
    (fun i hi => by
      have hi0 : i = 0 := by omega
      subst hi0
      exact ⟨.o2p (respError res429e), by decide, by decide⟩)
    (by decide)

/-- C9: an attempt aborted by the caller's cancellation signal is
normalized to a retry-eligible TIMEOUT "Request timed out" error, and the
already-aborted external signal is what the merge hands to later attempts;
so with every attempt aborting, `convert` retries through the sleeps until
all `maxRetries + 1` attempts are spent rather than failing on the first
cancellation. -/
theorem claim_c9 (maxRetries : Nat) (fs : FileSystem)
    (params : ConvertParams) (outcomes : Nat → AttemptOutcome)
    (rand : Nat → ℚ) (ext tctl : AbortSignalM) (freshId : Nat)
    (hval : validateParams fs params = .ok ())
    (habort : ∀ i, outcomes i = .transportFailure .domAbort)
    (hext : ext.aborted = true) :
    normalizeError .domAbort =
      { message := "Request timed out", code := .TIMEOUT } ∧
    isRetryAble (normalizeError .domAbort) = true ∧
    mergeAbortSignals [some ext, some tctl] freshId = some ext ∧
    (convert maxRetries fs params outcomes rand).result =
      .error { message := "Request timed out", code := .TIMEOUT } ∧
    (convert maxRetries fs params outcomes rand).attemptsUsed =
      maxRetries + 1 := by
  have hfail : ∀ i, attemptResult params (outcomes i) =
      .error RawError.domAbort := by
    intro i; rw [habort i]; rfl
  refine ⟨rfl, rfl, ?_, ?_, ?_⟩
  · unfold mergeAbortSignals
    simp [List.find?, hext]
  · rw [convert_validate_ok maxRetries fs params outcomes rand hval]
    have h := convertLoopAux_run_fail maxRetries params outcomes rand
      unexpectedConversionFailure RawError.domAbort maxRetries 0 none 0 []
      (by omega) (fun i hi1 hi2 => ⟨RawError.domAbort, hfail i, rfl⟩)
      (hfail maxRetries)
    simp only [Nat.sub_zero] at h
    rw [h]
    rfl
  · rw [convert_validate_ok maxRetries fs params outcomes rand hval]
    have h := convertLoopAux_run_fail maxRetries params outcomes rand
      unexpectedConversionFailure RawError.domAbort maxRetries 0 none 0 []
      (by omega) (fun i hi1 hi2 => ⟨RawError.domAbort, hfail i, rfl⟩)
      (hfail maxRetries)
    simp only [Nat.sub_zero] at h
    rw [h]
    show 0 + maxRetries + 1 = maxRetries + 1
    omega

theorem claim_c9_witness :
    normalizeError .domAbort =
      { message := "Request timed out", code := .TIMEOUT } ∧
    mergeAbortSignals [some ⟨0, true⟩, some ⟨1, false⟩] 5 = some ⟨0, true⟩ ∧
    (convert 1 fsRead paramsBuf outcomesAbort rand0).attemptsUsed = 2 := by
  have h := claim_c9 1 fsRead paramsBuf outcomesAbort rand0 ⟨0, true⟩
    ⟨1, false⟩ 5 (by decide) (fun i => rfl) rfl
  exact ⟨h.1, h.2.2.1, h.2.2.2.2⟩

/-- C3: after a failed attempt the loop retries exactly when the attempt
index is below `maxRetries` and the error is retry-eligible; an error is
retry-eligible exactly when its kind is TIMEOUT or NETWORK_ERROR or its
HTTP status is 408, 429 or in [500,599]; and a 401 response causes exactly
one attempt regardless of `maxRetries`. -/
theorem claim_c3 :
    (∀ e : Office2PDFError, isRetryAble e = true ↔
      (e.code = .TIMEOUT ∨ e.code = .NETWORK_ERROR ∨
        ∃ s, e.status = some s ∧
          (s = 408 ∨ s = 429 ∨ (500 ≤ s ∧ s ≤ 599)))) ∧
    (∀ (maxRetries : Nat) (params : ConvertParams)
       (outcomes : Nat → AttemptOutcome) (rand : Nat → ℚ)
       (fb : Office2PDFError) (attempt : Nat)
       (lastErr : Option Office2PDFError) (used : Nat) (sleeps : List Nat)
       (raw : RawError),
      attempt ≤ maxRetries →
      attemptResult params (outcomes attempt) = .error raw →
      convertLoopAux maxRetries params outcomes rand fb
        (maxRetries + 1 - attempt) attempt lastErr used sleeps =
        if attempt < maxRetries ∧ isRetryAble (normalizeError raw) = true then
          convertLoopAux maxRetries params outcomes rand fb
            (maxRetries + 1 - (attempt + 1)) (attempt + 1)
            (some (normalizeError raw)) (used + 1)
            (sleeps ++ [getBackoffMs attempt (rand attempt)])
        else ⟨.error (normalizeError raw), used + 1, sleeps⟩) ∧
    (∀ (maxRetries : Nat) (fs : FileSystem) (params : ConvertParams)
       (outcomes : Nat → AttemptOutcome) (rand : Nat → ℚ)
       (res : HttpResponse),
      validateParams fs params = .ok () →
      outcomes 0 = .response res →
      res.status = 401 →
      (convert maxRetries fs params outcomes rand).attemptsUsed = 1 ∧
      ∃ e, (convert maxRetries fs params outcomes rand).result = .error e ∧
        e.status = some 401 ∧ e.code = .UNAUTHORIZED) := by
  refine ⟨?_, ?_, ?_⟩
  · intro e
    obtain ⟨msg, code, status, rid, det⟩ := e
    cases status with
    | none =>
      cases code <;> simp [isRetryAble, isRetryAbleStatus]
    | some s =>
      cases code <;> simp [isRetryAble, isRetryAbleStatus] <;> omega
  · intro maxRetries params outcomes rand fb attempt lastErr used sleeps raw
      hle hfail
    exact convertLoopAux_step maxRetries params outcomes rand fb attempt
      lastErr used sleeps raw hle hfail
  · intro maxRetries fs params outcomes rand res hval h0 hst
    have hok : res.ok = false := by simp [HttpResponse.ok, hst]
    have herr : handleResponse res params = .error (respError res) :=
      handleResponse_not_ok res params hok
    have hfail : attemptResult params (outcomes 0) =
        .error (.o2p (respError res)) := by
      rw [h0]
      show (handleResponse res params).mapError RawError.o2p =
        Except.error (RawError.o2p (respError res))
      rw [herr]
      rfl
    have hstatus : (respError res).status = some 401 := by
      simp [respError, hst]
    have hcode : (respError res).code = .UNAUTHORIZED := by
      simp [respError, mapStatusToCode, hst]
    have hnotr : isRetryAble (normalizeError (.o2p (respError res))) = false := by
      show isRetryAble (respError res) = false
      simp [isRetryAble, hcode, hstatus, isRetryAbleStatus]
    rw [convert_validate_ok maxRetries fs params outcomes rand hval]
    have hstop := convertLoopAux_stop maxRetries params outcomes rand
      unexpectedConversionFailure 0 none 0 [] (.o2p (respError res))
      (by omega) hfail (fun _ => hnotr)
    simp only [Nat.sub_zero] at hstop
    rw [hstop]
    exact ⟨rfl, respError res, rfl, hstatus, hcode⟩

theorem claim_c3_witness :
    isRetryAble { message := "m", code := .TIMEOUT } = true ∧
    isRetryAble err401 = false ∧
    (convert 5 fsRead paramsBuf (fun _ => .response res401j) rand0).attemptsUsed
      = 1 := by
  refine ⟨?_, ?_, ?_⟩
  · exact (claim_c3.1 _).mpr (Or.inl rfl)
  · decide
  · exact (claim_c3.2.2 5 fsRead paramsBuf (fun _ => .response res401j)
      rand0 res401j (by decide) rfl rfl).1

/-- C4: the wait before retry attempt `n ≥ 1` is `300 * 2^(n-1)`
milliseconds plus a jitter `Math.floor(random * 150)` that lies in
`[0, 150)` for any draw in `[0, 1)`, and in a run that retries at every
opportunity the sleep trace applies `getBackoffMs` to each retry's own
fresh draw, so the wait is recomputed per retry. -/
theorem claim_c4 (maxRetries : Nat) (fs : FileSystem)
    (params : ConvertParams) (outcomes : Nat → AttemptOutcome)
    (rand : Nat → ℚ) (rawLast : RawError)
    (hval : validateParams fs params = .ok ())
    (hall : ∀ i, i < maxRetries → retryEligFail params (outcomes i))
    (hfail : attemptResult params (outcomes maxRetries) = .error rawLast)
    (hrand : ∀ i, 0 ≤ rand i ∧ rand i < 1) :
    (convert maxRetries fs params outcomes rand).sleeps =
      (List.range maxRetries).map (fun i => getBackoffMs i (rand i)) ∧
    (∀ n, 1 ≤ n → n ≤ maxRetries →
      ∃ jit, jit < 150 ∧
        (convert maxRetries fs params outcomes rand).sleeps.get? (n - 1) =
          some (300 * 2 ^ (n - 1) + jit)) := by
  have h := convertLoopAux_run_fail maxRetries params outcomes rand
    unexpectedConversionFailure rawLast maxRetries 0 none 0 []
    (by omega) (fun i hi1 hi2 => hall i hi2) hfail
  simp only [Nat.sub_zero] at h
  have hconv : (convert maxRetries fs params outcomes rand).sleeps =
      (List.range' 0 maxRetries).map (fun i => getBackoffMs i (rand i)) := by
    rw [convert_validate_ok maxRetries fs params outcomes rand hval, h]
    simp
  constructor
  · rw [hconv, List.range_eq_range']
  · intro n h1 h2
    refine ⟨(Int.floor (rand (n - 1) * 150)).toNat,
      jitter_lt_150 (rand (n - 1)) (hrand (n - 1)).1 (hrand (n - 1)).2, ?_⟩
    rw [hconv]
    rw [List.get?_eq_getElem?, List.getElem?_map, List.getElem?_range']
    · simp [getBackoffMs]
    · omega

theorem claim_c4_witness :
    (convert 2 fsRead paramsBuf outcomes429 rand0).sleeps =
      (List.range 2).map (fun i => getBackoffMs i (rand0 i)) ∧
    ∃ jit, jit < 150 ∧
      (convert 2 fsRead paramsBuf outcomes429 rand0).sleeps.get? 1 =
        some (300 * 2 ^ 1 + jit) := by
  have hre : retryEligFail paramsBuf (AttemptOutcome.response res429e) :=
    ⟨.o2p (respError res429e), by decide, by decide⟩
  have h := claim_c4 2 fsRead paramsBuf outcomes429 rand0
    (.o2p (respError res429e)) (by decide) (fun i hi => hre) (by decide)
    (fun i => ⟨le_refl 0, zero_lt_one⟩)
  exact ⟨h.1, h.2 2 (by omega) (by omega)⟩

/-- The status mapping of the source agrees with the amended table
(SERVER_ERROR for every status at or above 500). -/
theorem mapStatusToCode_amended (status : Nat) :
    mapStatusToCode status = specStatusKindAmended status := by
  unfold mapStatusToCode specStatusKindAmended
  split_ifs <;> first | rfl | omega

/-- C1 counterexample: the claim maps any status outside [500,599] and the
fixed table to UNKNOWN, but the code maps status 600 — a non-2xx status —
to SERVER_ERROR, preserving status and request id. -/
theorem claim_c1_counterexample :
    (convert 0 fsRead paramsBuf (fun _ => .response res600) rand0).result =
      .error { message := "Request failed with status 600",
               code := .SERVER_ERROR, status := some 600,
               requestId := none, details := none } ∧
    ErrorCode.SERVER_ERROR ≠ ErrorCode.UNKNOWN := by
  exact ⟨by decide, by decide⟩

/-- C1 as amended: on every non-2xx response `convert` (and its
`handleResponse` step) fails with the error kind of the fixed table —
where any status at or above 500 outside the table yields SERVER_ERROR —
and the error preserves the numeric status and the response's request
id. -/
theorem claim_c1_amended (res : HttpResponse) (params : ConvertParams)
    (hok : res.ok = false) :
    (handleResponse res params = .error (respError res) ∧
      (respError res).code = specStatusKindAmended res.status ∧
      (respError res).status = some res.status ∧
      (respError res).requestId = getRequestId res) ∧
    (∀ (maxRetries : Nat) (fs : FileSystem)
       (outcomes : Nat → AttemptOutcome) (rand : Nat → ℚ),
      validateParams fs params = .ok () →
      (∀ i, outcomes i = .response res) →
      (convert maxRetries fs params outcomes rand).result =
        .error (respError res)) := by
  have herr := handleResponse_not_ok res params hok
  constructor
  · refine ⟨herr, ?_, rfl, rfl⟩
    show mapStatusToCode res.status = _
    exact mapStatusToCode_amended res.status
  · intro maxRetries fs outcomes rand hval hout
    have hfail : ∀ i, attemptResult params (outcomes i) =
        .error (.o2p (respError res)) := by
      intro i
      rw [hout i]
      show (handleResponse res params).mapError RawError.o2p =
        Except.error (RawError.o2p (respError res))
      rw [herr]
      rfl
    rw [convert_validate_ok maxRetries fs params outcomes rand hval]
    by_cases helig : isRetryAble (respError res) = true
    · have h := convertLoopAux_run_fail maxRetries params outcomes rand
        unexpectedConversionFailure (.o2p (respError res)) maxRetries 0
        none 0 [] (by omega)
        (fun i hi1 hi2 => ⟨.o2p (respError res), hfail i, helig⟩)
        (hfail maxRetries)
      simp only [Nat.sub_zero] at h
      rw [h]
      rfl
    · have hne : isRetryAble (respError res) = false := by
        cases hx : isRetryAble (respError res)
        · rfl
        · exact absurd hx helig
      have h := convertLoopAux_stop maxRetries params outcomes rand
        unexpectedConversionFailure 0 none 0 [] (.o2p (respError res))
        (by omega) (hfail 0) (fun _ => hne)
      simp only [Nat.sub_zero] at h
      rw [h]
      rfl

theorem claim_c1_witness :
    handleResponse res600 paramsBuf = .error (respError res600) ∧
    (respError res600).code = specStatusKindAmended 600 ∧
    (convert 0 fsRead paramsBuf (fun _ => .response res600) rand0).result =
      .error (respError res600) := by
  have h := claim_c1_amended res600 paramsBuf (by decide)
  exact ⟨h.1.1, h.1.2.1,
    h.2 0 fsRead (fun _ => .response res600) rand0 (by decide)
      (fun i => rfl)⟩

/-- C5: a non-2xx body is parsed only when the content-type indicates
JSON and parsing succeeds; the error message is the body's string
`message` field, else its string `error_description` field, else the
literal "Request failed with status {status}"; and any parsed body is
preserved as the diagnostic payload. -/
theorem claim_c5 (res : HttpResponse) (params : ConvertParams) :
    (∀ j, safeReadJson res = some j →
      includesSubstr ((res.hget "content-type").getD "") "application/json"
        = true ∧
      res.jsonBody = some j) ∧
    (res.ok = false →
      handleResponse res params = .error (respError res) ∧
      (respError res).message =
        (match safeReadJson res with
         | some j =>
           match jsonGetStr j "message" with
           | some m => m
           | none =>
             match jsonGetStr j "error_description" with
             | some m => m
             | none => "Request failed with status " ++ toString res.status
         | none => "Request failed with status " ++ toString res.status) ∧
      (respError res).details = (safeReadJson res).map Details.jsonBody) := by
  constructor
  · intro j hj
    have hj2 : (if includesSubstr ((res.hget "content-type").getD "")
        "application/json" = true then res.jsonBody else none) = some j := hj
    by_cases hct : includesSubstr ((res.hget "content-type").getD "")
        "application/json" = true
    · refine ⟨hct, ?_⟩
      rwa [if_pos hct] at hj2
    · rw [if_neg hct] at hj2
      exact Option.noConfusion hj2
  · intro hok
    exact ⟨handleResponse_not_ok res params hok, rfl, rfl⟩

theorem claim_c5_witness :
    (respError res422).message = "Request failed with status 422" ∧
    (respError res422).details =
      some (.jsonBody [("error", .str "SOME_CODE")]) ∧
    (respError res401j).message = "Invalid API key" := by
  have h2 := (claim_c5 res422 paramsBuf).2 (by decide)
  have h3 := (claim_c5 res401j paramsBuf).2 (by decide)
  refine ⟨?_, ?_, ?_⟩
  · rw [h2.2.1]; decide
  · rw [h2.2.2]; decide
  · rw [h3.2.1]; decide

/-- C6 counterexample: the claim requires validation failure whenever the
disk-destination's parent directory is unwritable, but for a bare filename
destination the parent is "." and the code skips the writability check: in
a file system where nothing is writable, `convert` still performs the HTTP
attempt and succeeds. -/
theorem claim_c6_counterexample :
    posixDirname "out.pdf" = "." ∧
    fsNoWrite.writableDir "." = false ∧
    convert 2 fsNoWrite paramsDl (fun _ => .response res200buf) rand0 =
      ⟨.ok (.downloaded "out.pdf" "application/pdf" (some "rid_1")), 1, []⟩ := by
  exact ⟨by decide, rfl, by decide⟩

/-- C6 as amended: for every request whose file path is trim-empty or not
readable, or that sets both the streamed-result flag and a
disk-destination, or whose disk-destination parent directory is neither
"." nor writable, `convert` fails exactly once with kind INVALID_REQUEST
before any attempt (zero HTTP requests, zero sleeps). -/
theorem claim_c6_amended (maxRetries : Nat) (fs : FileSystem)
    (params : ConvertParams) (outcomes : Nat → AttemptOutcome)
    (rand : Nat → ℚ)
    (hbad :
      jsTrim params.filePath = "" ∨
      fs.readable params.filePath = false ∨
      (truthyOptBool params.asWebStream = true ∧
        truthyOptStr params.downloadToPath = true) ∨
      (truthyOptStr params.downloadToPath = true ∧
        posixDirname (params.downloadToPath.getD "") ≠ "." ∧
        fs.writableDir (posixDirname (params.downloadToPath.getD ""))
          = false)) :
    ∃ e, convert maxRetries fs params outcomes rand = ⟨.error e, 0, []⟩ ∧
      e.code = .INVALID_REQUEST := by
  have hnotok : ∀ u, ¬ validateParams fs params = .ok u := by
    intro u hcontra
    unfold validateParams at hcontra
    split_ifs at hcontra
    all_goals try (dsimp only [] at hcontra)
    all_goals try split_ifs at hcontra
    all_goals
      rcases hbad with hb | hb | ⟨hba, hbb⟩ | ⟨hba, hbb, hbc⟩ <;>
        simp_all [String.isEmpty_iff, posixDirname_ne_empty]
  cases hval : validateParams fs params with
  | ok u => exact absurd hval (hnotok u)
  | error e =>
    exact ⟨e, convert_validate_fail maxRetries fs params outcomes rand e hval,
      validateParams_code fs params e hval⟩

theorem claim_c6_witness :
    (convert 3 fsRead paramsBad (fun _ => .response res200buf) rand0).attemptsUsed
      = 0 ∧
    ∃ e, (convert 3 fsRead paramsBad (fun _ => .response res200buf)
        rand0).result = .error e ∧
      e.code = .INVALID_REQUEST := by
  obtain ⟨e, he, hc⟩ := claim_c6_amended 3 fsRead paramsBad
    (fun _ => .response res200buf) rand0 (Or.inr (Or.inl (by decide)))
  refine ⟨?_, e, ?_, hc⟩
  · rw [he]
  · rw [he]

/-- C7 counterexample: the claim promises a result variant on every 2xx
response, but a 204 (2xx) response has a null body and stream-mode
`handleResponse` fails with UNKNOWN instead of producing a variant. -/
theorem claim_c7_counterexample :
    HttpResponse.ok res204 = true ∧
    handleResponse res204 paramsStream =
      .error { message := "Empty response body", code := .UNKNOWN,
               status := none, requestId := none, details := none } := by
  exact ⟨rfl, by decide⟩

/-- On a 2xx response `handleResponse` branches on the delivery mode: with
a body — or in buffer mode, which needs none — it returns the variant of
the requested mode carrying the content-type header (default
"application/pdf") and the request id; with a null body in stream or
download mode it throws the "Empty response body" UNKNOWN error. -/
theorem handleResponse_ok_cases (res : HttpResponse) (params : ConvertParams)
    (hok : res.ok = true) :
    (∀ b, res.body = some b ∨
        (truthyOptBool params.asWebStream = false ∧
          truthyOptStr params.downloadToPath = false) →
      ∃ out, handleResponse res params = .ok out ∧
        out.kind = (if truthyOptBool params.asWebStream = true then "stream"
          else if truthyOptStr params.downloadToPath = true then "downloaded"
          else "buffer") ∧
        out.contentType = (res.hget "content-type").getD "application/pdf" ∧
        out.requestId = getRequestId res) ∧
    (res.body = none →
      (truthyOptBool params.asWebStream = true ∨
        truthyOptStr params.downloadToPath = true) →
      handleResponse res params =
        .error { message := "Empty response body", code := .UNKNOWN,
                 requestId := getRequestId res }) := by
  constructor
  · intro b hbody
    unfold handleResponse
    dsimp only []
    rw [if_neg (by simp [hok])]
    by_cases hasw : truthyOptBool params.asWebStream = true
    · rcases hbody with hb | ⟨hb1, hb2⟩
      · rw [if_pos hasw, hb]
        exact ⟨.stream b ((res.hget "content-type").getD "application/pdf")
          (getRequestId res), rfl, by simp [hasw, ConvertResult.kind], rfl, rfl⟩
      · rw [hb1] at hasw
        exact Bool.noConfusion hasw
    · rw [if_neg hasw]
      by_cases hdl : truthyOptStr params.downloadToPath = true
      · rcases hbody with hb | ⟨hb1, hb2⟩
        · rw [if_pos hdl, hb]
          exact ⟨.downloaded (params.downloadToPath.getD "")
            ((res.hget "content-type").getD "application/pdf")
            (getRequestId res), rfl,
            by simp [hasw, hdl, ConvertResult.kind], rfl, rfl⟩
        · rw [hb2] at hdl
          exact Bool.noConfusion hdl
      · rw [if_neg hdl]
        exact ⟨.buffer (res.body.getD [])
          ((res.hget "content-type").getD "application/pdf")
          (getRequestId res), rfl,
          by simp [hasw, hdl, ConvertResult.kind], rfl, rfl⟩
  · intro hnone hmode
    unfold handleResponse
    dsimp only []
    rw [if_neg (by simp [hok])]
    by_cases hasw : truthyOptBool params.asWebStream = true
    · rw [if_pos hasw, hnone]
    · have hdl : truthyOptStr params.downloadToPath = true := by
        rcases hmode with hm | hm
        · exact absurd hm hasw
        · exact hm
      rw [if_neg hasw, if_pos hdl, hnone]

/-- C7 as amended, at the `convert` level: for every 2xx response, if the
response has a body — or buffer mode is requested, which needs none —
`convert` returns exactly one of the three result variants, selected by
the requested delivery mode (stream if the streamed-result flag is set,
else downloaded if a disk destination is set, else buffer), carrying the
content-type header (default "application/pdf") and the request id taken
from x-request-id, falling back to cf-ray, else absent; if the body is
absent while stream or disk delivery is requested, `convert` fails in
exactly one attempt with kind UNKNOWN. -/
theorem claim_c7_amended (res : HttpResponse) (params : ConvertParams)
    (maxRetries : Nat) (fs : FileSystem) (outcomes : Nat → AttemptOutcome)
    (rand : Nat → ℚ)
    (hok : res.ok = true)
    (hval : validateParams fs params = .ok ())
    (hout : outcomes 0 = .response res) :
    (∀ b, res.body = some b ∨
        (truthyOptBool params.asWebStream = false ∧
          truthyOptStr params.downloadToPath = false) →
      ∃ out,
        (convert maxRetries fs params outcomes rand).result = .ok out ∧
        handleResponse res params = .ok out ∧
        out.kind = (if truthyOptBool params.asWebStream = true then "stream"
          else if truthyOptStr params.downloadToPath = true then "downloaded"
          else "buffer") ∧
        out.contentType = (res.hget "content-type").getD "application/pdf" ∧
        out.requestId = getRequestId res) ∧
    (res.body = none →
      (truthyOptBool params.asWebStream = true ∨
        truthyOptStr params.downloadToPath = true) →
      (convert maxRetries fs params outcomes rand).result =
        .error { message := "Empty response body", code := .UNKNOWN,
                 requestId := getRequestId res } ∧
      (convert maxRetries fs params outcomes rand).attemptsUsed = 1) := by
  have hcases := handleResponse_ok_cases res params hok
  constructor
  · intro b hbody
    obtain ⟨out, hh, hkind, hct, hrid⟩ := hcases.1 b hbody
    have hatt : attemptResult params (outcomes 0) = .ok out := by
      rw [hout]
      show (handleResponse res params).mapError RawError.o2p = .ok out
      rw [hh]
      rfl
    have hrun := convertLoopAux_run_ok maxRetries params outcomes rand
      unexpectedConversionFailure out 0 0 none 0 [] (by omega)
      (fun i h1 h2 => absurd h2 (by omega)) hatt
    simp only [Nat.sub_zero] at hrun
    refine ⟨out, ?_, hh, hkind, hct, hrid⟩
    rw [convert_validate_ok maxRetries fs params outcomes rand hval, hrun]
  · intro hnone hmode
    have hh := hcases.2 hnone hmode
    have hatt : attemptResult params (outcomes 0) =
        .error (.o2p { message := "Empty response body", code := .UNKNOWN,
                       requestId := getRequestId res }) := by
      rw [hout]
      show (handleResponse res params).mapError RawError.o2p = _
      rw [hh]
      rfl
    have hstop := convertLoopAux_stop maxRetries params outcomes rand
      unexpectedConversionFailure 0 none 0 []
      (.o2p { message := "Empty response body", code := .UNKNOWN,
              requestId := getRequestId res })
      (by omega) hatt (fun _ => rfl)
    simp only [Nat.sub_zero] at hstop
    rw [convert_validate_ok maxRetries fs params outcomes rand hval, hstop]
    exact ⟨rfl, rfl⟩

theorem claim_c7_witness :
    (∃ out,
      (convert 2 fsRead paramsBuf (fun _ => .response res200buf)
        rand0).result = .ok out ∧
      handleResponse res200buf paramsBuf = .ok out ∧
      out.kind = "buffer" ∧ out.contentType = "application/pdf" ∧
      out.requestId = some "rid_1") ∧
    (convert 2 fsRead paramsDl (fun _ => .response res204) rand0).result =
      .error { message := "Empty response body", code := .UNKNOWN,
               status := none, requestId := none, details := none } ∧
    (convert 2 fsRead paramsDl (fun _ => .response res204)
      rand0).attemptsUsed = 1 := by
  constructor
  · obtain ⟨out, hconv, hh, hkind, hct, hrid⟩ :=
      (claim_c7_amended res200buf paramsBuf 2 fsRead
        (fun _ => .response res200buf) rand0 (by decide) (by decide) rfl).1
        [37, 80, 68, 70] (Or.inl (by decide))
    exact ⟨out, hconv, hh, hkind.trans (by decide), hct.trans (by decide),
      hrid.trans (by decide)⟩
  · have h := (claim_c7_amended res204 paramsDl 2 fsRead
      (fun _ => .response res204) rand0 (by decide) (by decide) rfl).2
      rfl (Or.inr (by decide))
    exact ⟨h.1.trans (by decide), h.2⟩

/-- The source's base-URL normalization agrees with the amended
description (default on omitted or empty, whitespace-trimmed, one
trailing slash trimmed). -/
theorem normalizeBaseUrl_amended (b : Option String) :
    normalizeBaseUrl b = specBaseUrlAmended b := by
  unfold normalizeBaseUrl specBaseUrlAmended
  cases b with
  | none => rfl
  | some s =>
    by_cases hs : s = ""
    · subst hs; decide
    · simp [String.isEmpty_iff, hs]

/-- C8 counterexample: the claim says the stored base URL is the given URL
with one trailing slash trimmed, but for a given URL with trailing
whitespace — which does not end in a slash, so the claim's trimming would
leave it unchanged — the constructor stores a different string (it first
JS-trims the URL and then strips the slash). -/
theorem claim_c8_counterexample :
    mkClient optsSlashSpace =
      .ok { apiKey := "k", baseUrl := "https://h", timeoutMs := 120000,
            userAgent := "office2pdf-node", maxRetries := 2 } ∧
    jsEndsWith "https://h/ " "/" = false ∧
    "https://h" ≠ "https://h/ " := by
  exact ⟨by decide, by decide, by decide⟩

/-- C8 as amended: construction fails, with no network interaction, if and
only if the API key is empty or whitespace-only; otherwise the stored base
URL is the given URL — or the default when omitted or empty —
whitespace-trimmed and then with one trailing slash trimmed, maxRetries is
the given value clamped to at least 0 (default 2), and the timeout and
user agent take their documented defaults when omitted. -/
theorem claim_c8_amended (opts : Office2PDFClientOptions) :
    ((∃ msg, mkClient opts = .error msg) ↔
      ∀ c ∈ opts.apiKey.data, jsWhitespace c = true) ∧
    ((¬ ∀ c ∈ opts.apiKey.data, jsWhitespace c = true) →
      mkClient opts = .ok
        { apiKey := jsTrim opts.apiKey,
          baseUrl := specBaseUrlAmended opts.baseUrl,
          timeoutMs := opts.timeoutMs.getD 120000,
          userAgent := opts.userAgent.getD "office2pdf-node",
          maxRetries := (max 0 (opts.maxRetries.getD 2)).toNat }) := by
  have hiff : (jsTrim opts.apiKey).isEmpty = true ↔
      ∀ c ∈ opts.apiKey.data, jsWhitespace c = true := by
    rw [String.isEmpty_iff]
    exact jsTrim_eq_empty_iff opts.apiKey
  constructor
  · constructor
    · rintro ⟨msg, hmsg⟩
      unfold mkClient at hmsg
      by_cases hemp : (jsTrim opts.apiKey).isEmpty = true
      · exact hiff.mp hemp
      · rw [if_neg hemp] at hmsg
        exact Except.noConfusion hmsg
    · intro hws
      refine ⟨"Office2PDF: apiKey is required", ?_⟩
      unfold mkClient
      rw [if_pos (hiff.mpr hws)]
  · intro hnws
    have hemp : ¬ (jsTrim opts.apiKey).isEmpty = true :=
      fun h => hnws (hiff.mp h)
    unfold mkClient
    rw [if_neg hemp, normalizeBaseUrl_amended]
    rfl

theorem claim_c8_witness :
    mkClient optsPlain =
      .ok { apiKey := "key", baseUrl := "https://api.office2pdf.app",
            timeoutMs := 120000, userAgent := "office2pdf-node",
            maxRetries := 2 } := by
  have h := (claim_c8_amended optsPlain).2 (by decide)
  exact h.trans (by decide)
